import Mathlib

/-!
Verification of the podica podcast-generation pipeline
(`src/podcast_creator`, `src/llm`) against its natural-language
specification.

The Python source is shallowly embedded: each pipeline function becomes a
pure Lean function over explicit inputs; the language-model and
speech-synthesis backends become oracle parameters; exceptions become
`Except`; `asyncio.sleep` calls are recorded in an explicit list so that
pause behaviour can be stated.
-/

namespace Podica

/-! ## Retry loops (`src/podcast_creator/nodes.py`)

`generate_outline_node` and `generate_transcript_node` use
`for attempt in range(3)` with `await asyncio.sleep(1)` between attempts;
`generate_single_audio_clip` uses `for attempt in range(5)` with
`await asyncio.sleep(3)`.  All three loops have the same inline shape:
try the call; on success break; if the failing attempt was the last one
re-raise; otherwise sleep and go round again.  `pyRetryFrom` embeds that
loop body starting at attempt `a`; the oracle `succeeds a` tells whether
the underlying call succeeds on (0-based) attempt `a`. -/

/-- Result of a retry loop: which attempt succeeded (if any), how many
calls were issued, and the sequence of pauses slept. -/
structure RetryResult where
  outcome : Except Unit Nat
  calls : Nat
  sleeps : List Nat
  deriving Repr

/-- The Python retry loop from attempt `a` on, with `max` total attempts
and a `pause`-second sleep between attempts. -/
def pyRetryFrom (succeeds : Nat → Bool) (max pause a : Nat) : RetryResult :=
  if succeeds a then ⟨Except.ok a, 1, []⟩
  else if _h : a + 1 < max then
    let r := pyRetryFrom succeeds max pause (a + 1)
    ⟨r.outcome, r.calls + 1, pause :: r.sleeps⟩
  else ⟨Except.error (), 1, []⟩
termination_by max - a

/-- The whole retry loop `for attempt in range(max): ...`. -/
def pyRetry (succeeds : Nat → Bool) (max pause : Nat) : RetryResult :=
  pyRetryFrom succeeds max pause 0

/-- The audio-clip retry loop of `generate_single_audio_clip`
(`nodes.py`): 5 attempts, 3-second pause. -/
def audioClipRetry (succeeds : Nat → Bool) : RetryResult :=
  pyRetry succeeds 5 3

/-- The outline retry loop of `generate_outline_node` (`nodes.py`):
3 attempts, 1-second pause. -/
def outlineRetry (succeeds : Nat → Bool) : RetryResult :=
  pyRetry succeeds 3 1

/-- The per-segment transcript retry loop of `generate_transcript_node`
(`nodes.py`): 3 attempts, 1-second pause. -/
def transcriptSegmentRetry (succeeds : Nat → Bool) : RetryResult :=
  pyRetry succeeds 3 1

/-! ## Dialogue lines and per-segment transcript generation -/

/-- Modelled from the spec: the `Dialogue` record is defined in
`podcast_creator/core.py`, which is absent from the sources (only its
importers are present).  Per spec §3, a `Dialogue` is a speaker name, a
line of text, an optional emotion tag and an optional speed tag, where
the tags are names into the active `EmotionConfig` / `SpeedConfig`
vocabularies. -/
structure Dialogue where
  speaker : String
  dialogue : String
  emotion : Option String
  speed : Option String
  deriving Repr, DecidableEq

/-- The per-segment loop of `generate_transcript_node` (`nodes.py`):
for each outline segment in order, run the model-call-plus-parse under
`transcriptSegmentRetry`; on success `transcript.extend(result.transcript)`
and move to the next segment; on retry exhaustion the raised
`RuntimeError` propagates, aborting the run.  A segment is given by its
attempt oracle `o : Nat → Except Unit (List Dialogue)` (`o a` is the
parse outcome of attempt `a`).  Returns the final outcome together with
the number of model calls issued per processed segment. -/
def generateTranscriptSegments (segs : List (Nat → Except Unit (List Dialogue)))
    (acc : List Dialogue) : Except Unit (List Dialogue) × List Nat :=
  match segs with
  | [] => (Except.ok acc, [])
  | o :: rest =>
    let r := transcriptSegmentRetry (fun a => (o a).isOk)
    match r.outcome with
    | Except.error _ => (Except.error (), [r.calls])
    | Except.ok k =>
      let res := generateTranscriptSegments rest (acc ++ ((o k).toOption.getD []))
      (res.1, r.calls :: res.2)

/-! ## Audio synthesis scheduling (`generate_all_audio_node`,
`generate_single_audio_clip` in `nodes.py`) -/

/-- Python `f"{index:04d}"`: the decimal digits of `i`, left-padded with
zeros to a width of at least 4. -/
def zeroPad4 (i : Nat) : String :=
  let s := toString i
  String.mk (List.replicate (4 - s.length) '0') ++ s

/-- The clip path built by `generate_single_audio_clip`:
`output_dir / "clips" / f"{index:04d}.mp3"`. -/
def clipPath (outputDir : String) (i : Nat) : String :=
  outputDir ++ "/clips/" ++ zeroPad4 i ++ ".mp3"

/-- Fuel-driven worker for `pyRangeStep`; the fuel is an upper bound on
the number of remaining iterations, set to `stop - start` at the top
level, which is exact for a positive step. -/
def pyRangeAux (stop step : Nat) : Nat → Nat → List Nat
  | 0, _ => []
  | fuel + 1, start =>
    if 0 < step ∧ start < stop then start :: pyRangeAux stop step fuel (start + step)
    else []

/-- Python `range(start, stop, step)` for a non-negative step (an empty
range when `step = 0`, where CPython would raise `ValueError`). -/
def pyRangeStep (start stop step : Nat) : List Nat :=
  pyRangeAux stop step (stop - start) start

/-- The batch slices of `generate_all_audio_node`: for each
`batch_start in range(0, total_segments, batch_size)` the clip indices
`batch_start … min(batch_start + batch_size, total_segments) - 1`. -/
def audioBatches (total bs : Nat) : List (List Nat) :=
  (pyRangeStep 0 total bs).map (fun s => List.range' s (min (s + bs) total - s))

/-- The clip-path list accumulated by `generate_all_audio_node` over a
fully successful run: per batch, `asyncio.gather` returns the batch's
clip paths in task order and `all_clip_paths.extend` appends them. -/
def generateAllAudioPaths (outputDir : String) (total bs : Nat) : List String :=
  (audioBatches total bs).flatMap (fun batch => batch.map (clipPath outputDir))

/-- An observable event of the scheduler: synthesis for line `i` starts,
or synthesis for line `i` finishes. -/
inductive AudioEvent where
  | start (i : Nat)
  | finish (i : Nat)
  deriving Repr, DecidableEq

/-- The events of one batch: all of its synthesis tasks are started
(created and passed to `asyncio.gather`), and all of them finish before
`gather` returns. -/
def batchEvents (b : List Nat) : List AudioEvent :=
  b.map AudioEvent.start ++ b.map AudioEvent.finish

/-- The execution trace of `generate_all_audio_node`: batches run one
after the other — the `await asyncio.gather(*batch_tasks)` for a batch
completes before the next batch's tasks are created. -/
def audioTrace (total bs : Nat) : List AudioEvent :=
  (audioBatches total bs).flatMap batchEvents

/-! ## Content preprocessor (`content_transform_node` in `nodes.py`)

The same per-item branch logic appears twice in the source, once for a
single-string `content` and once per string item of a list `content`;
`contentTransformItem` embeds that shared logic.  The two `ainvoke`
model calls (classifier and answer/summary) become oracle functions. -/

/-- Python `str.strip()`: drop leading and trailing whitespace. -/
def pyStrip (s : String) : String :=
  String.mk (((s.data.dropWhile Char.isWhitespace).reverse.dropWhile
    Char.isWhitespace).reverse)

/-- The model calls issued by `content_transform_node`: the
needs-elaboration classifier (`judge_prompt`, truth of `"需要" in
judge_response.content`), the briefing-guided summarizer
(`summary_prompt`), and the question-answerer (`qa_prompt`). -/
structure ContentOracle where
  judge : String → Bool
  summarize : String → String → String
  answer : String → String

/-- Per-item decision policy of `content_transform_node` (`nodes.py`
lines 76–116 and 121–163): returns the processed item together with the
number of model calls issued for it. -/
def contentTransformItem (o : ContentOracle) (briefing item : String) :
    String × Nat :=
  if 5000 < (pyStrip item).length then (o.summarize briefing item, 1)
  else if 500 ≤ (pyStrip item).length then (item, 0)
  else if o.judge item then (o.answer item, 2)
  else (item, 1)

/-- Counterexample input for the claim that the branch thresholds are
measured on the raw item length: 499 letters followed by one space, so
`len(item) = 500` but `len(item.strip()) = 499`. -/
def c2Item : String := String.mk (List.replicate 499 'a' ++ [' '])

/-- A concrete content oracle whose outputs are distinguishable from the
inputs. -/
def c2Oracle : ContentOracle :=
  ⟨fun _ => true, fun _ _ => "SUMMARY", fun _ => "ANSWER"⟩

/-! ## TTS call parameters (`generate_single_audio_clip` in `nodes.py`) -/

/-- Python truthiness of an optional string: `None` and `""` are falsy. -/
def pyTruthyStr (s : Option String) : Bool :=
  match s with
  | none => false
  | some v => !v.isEmpty

/-- The keyword arguments `generate_single_audio_clip` assembles for the
backend's `agenerate_speech` call. -/
structure TTSKwargs where
  instructions : Option String
  reference_audio : Option String
  dialect : Option String
  deriving Repr, DecidableEq

/-- Custom-voice resolution (`nodes.py` lines 463–482): if the speaker
has a truthy `custom_voices` entry, read the file and base64-encode it
when the path exists (`fileB64` returns the encoded bytes for existing
paths), otherwise pass the value through as already-encoded data. -/
def resolveReferenceAudio (customVoices : List (String × String))
    (fileB64 : String → Option String) (speaker : String) : Option String :=
  match customVoices.lookup speaker with
  | none => none
  | some v =>
    if v.isEmpty then none
    else
      match fileB64 v with
      | some b64 => some b64
      | none => some v

/-- The `tts_kwargs` dict built by `generate_single_audio_clip`
(`nodes.py` lines 454–498): `instructions` is set to `dialogue.emotion`
when the dialogue carries a truthy emotion tag; `reference_audio` from
the custom-voice mapping; `dialect` passed through when truthy. -/
def buildTTSKwargs (dialogue : Dialogue) (customVoices : List (String × String))
    (fileB64 : String → Option String) (dialect : Option String) : TTSKwargs :=
  { instructions := if pyTruthyStr dialogue.emotion then dialogue.emotion else none
    reference_audio := resolveReferenceAudio customVoices fileB64 dialogue.speaker
    dialect := if pyTruthyStr dialect then dialect else none }

/-- Voice-id resolution: `voices.get(speaker_name, "default")`. -/
def resolveVoiceId (voices : List (String × String)) (speaker : String) : String :=
  (voices.lookup speaker).getD "default"

/-! ## Emotion configuration (`src/podcast_creator/emotions.py`) -/

/-- One emotion configuration entry. -/
structure Emotion where
  name : String
  text : List String
  category : List String
  description : String
  deriving Repr, DecidableEq

/-- The method `Emotion.get_voice_instructions`: the emotion's delivery-instruction
lines joined with newlines — the configured description text for the
voice style. -/
def Emotion.get_voice_instructions (e : Emotion) : String :=
  String.intercalate "\n" e.text

/-- Concrete emotion configuration entry used to exhibit the
instructions divergence. -/
def c6Emotion : Emotion :=
  ⟨"Cheerful", ["Speak with a bright, upbeat tone."], [], ""⟩

/-- A dialogue line carrying the `"Cheerful"` emotion tag (per the spec,
`Dialogue.emotion` holds a name of the `EmotionConfig` vocabulary). -/
def c6Dialogue : Dialogue :=
  ⟨"Alice", "Great to see you!", some "Cheerful", none⟩

/-! ## Kokoro TTS backend (`KokoroTTSWrapper.generate_speech` in
`src/llm/tts.py`) -/

/-- The external collaborators of `KokoroTTSWrapper.generate_speech`:
`dialect_utils.remove_dialect_tag`, `_detect_language`, the two entries
of `config.VOICE_MAPPINGS` it selects between (`"kokoro_zh"` /
`"kokoro"`), and the underlying neural model call
`self.model.generate_speech(text, speaker, language, speed)`. -/
structure KokoroEnv where
  removeDialectTag : String → String
  detectLang : String → String
  voiceMapZh : List (String × String)
  voiceMapEn : List (String × String)
  synthesize : String → String → String → ℚ → List Nat

/-- Result of one wrapper call: the synthesized audio plus the warnings
logged along the way. -/
structure KokoroSpeechResult where
  audio : List Nat
  warnings : List String
  deriving Repr, DecidableEq

/-- The warning logged by `KokoroTTSWrapper.generate_speech` when a
dialect is requested (Kokoro does not support dialect generation). -/
def kokoroDialectWarning (d : String) : String :=
  "Dialect " ++ d ++ " specified but Kokoro TTS does not support dialect generation. Using standard Chinese."

/-- The dialects the Kokoro `TTSCapability` descriptor reports as
supported (`providers/kokoro_tts.py`: `supported_dialects=["mandarin"]`). -/
def kokoroSupportedDialects : List String := ["mandarin"]

/-- The wrapper `KokoroTTSWrapper.generate_speech` (`src/llm/tts.py` lines 206–269):
strip dialect tags from the text, detect the language, pick the voice
map for the detected language, resolve the voice with
`voice_map.get(voice, voice_map["default"])` (the fallback is evaluated
eagerly — a missing `"default"` key is a `KeyError`), log warnings for
an `instructions` parameter and for any requested dialect, then
synthesize; neither parameter reaches the model call. -/
def kokoroGenerateSpeech (env : KokoroEnv) (text voice : String)
    (instructions : Option String) (dialect : Option String) (speed : ℚ) :
    Except String KokoroSpeechResult :=
  let processed := env.removeDialectTag text
  let lang := env.detectLang processed
  let vmap := if lang == "zh" then env.voiceMapZh else env.voiceMapEn
  match vmap.lookup "default" with
  | none => Except.error "KeyError: default"
  | some dflt =>
    let kvoice := (vmap.lookup voice).getD dflt
    let w1 := if pyTruthyStr instructions then
        ["Instructions parameter provided (not used by Kokoro)"] else []
    let w2 := match dialect with
      | some d => if d.isEmpty then [] else [kokoroDialectWarning d]
      | none => []
    Except.ok ⟨env.synthesize processed kvoice lang speed, w1 ++ w2⟩

/-- Concrete Kokoro environment for the C7 witness. -/
def c7Env : KokoroEnv :=
  ⟨id, fun _ => "zh", [("default", "af_heart")], [("default", "af_sky")],
    fun _ _ _ _ => [1, 2, 3]⟩

/-! ## Speaker profiles (`src/podcast_creator/speakers.py`) -/

/-- One speaker entry of a `SpeakerProfile`. -/
structure Speaker where
  name : String
  voice_id : String
  backstory : String
  personality : String
  custom_voice : Option String
  deriving Repr, DecidableEq

/-- The uniqueness key `SpeakerProfile.validate_speakers` computes per
speaker: `f"custom:{custom_voice}"` when `voice_id == "custom"` and the
custom voice is truthy, else the raw `voice_id`. -/
def speakerVoiceKey (s : Speaker) : String :=
  match s.custom_voice with
  | some cv => if s.voice_id == "custom" && !cv.isEmpty then "custom:" ++ cv else s.voice_id
  | none => s.voice_id

/-- The validator `SpeakerProfile.validate_speakers`: 1–4 speakers, unique names
(`len(names) != len(set(names))` fails), unique voice keys. -/
def validate_speakers (v : List Speaker) : Except String (List Speaker) :=
  if v.length < 1 ∨ 4 < v.length then
    Except.error "Must have between 1 and 4 speakers"
  else if ¬ (v.map Speaker.name).Nodup then
    Except.error "Speaker names must be unique"
  else if ¬ (v.map speakerVoiceKey).Nodup then
    Except.error "Voice IDs must be unique (or custom_voice paths must be unique)"
  else
    Except.ok v

/-- Concrete valid profile for the C9 witness: Bob and Carol both use
the `"custom"` voice id with distinct custom-voice references. -/
def c9Speakers : List Speaker :=
  [⟨"Alice", "nova", "host", "curious", none⟩,
   ⟨"Bob", "custom", "guest", "calm", some "bob.mp3"⟩,
   ⟨"Carol", "custom", "guest", "witty", some "carol.mp3"⟩]

/-! ## Validated Script Parser -/

/-- Modelled from the spec: `create_validated_transcript_parser` is
defined in `podcast_creator/core.py`, absent from the sources (only its
caller `generate_transcript_node(speaker_names, emotions_names,
speed_names)` is present).  Per spec §4.3, a parsed line is valid when
its speaker is in the configured speaker names and its emotion/speed
tags, when present, are in the configured vocabularies. -/
def validDialogue (speakerNames emotionNames speedNames : List String)
    (d : Dialogue) : Bool :=
  speakerNames.contains d.speaker &&
  (match d.emotion with
   | none => true
   | some e => emotionNames.contains e) &&
  (match d.speed with
   | none => true
   | some sp => speedNames.contains sp)

/-- Modelled from the spec: the validation step of the Validated Script
Parser (`core.py`, absent) — whole-or-nothing: the parsed batch is
accepted in full if every line is valid, and rejected in full (a parse
failure, which the caller's retry loop catches) otherwise. -/
def validateTranscriptBatch (speakerNames emotionNames speedNames : List String)
    (lines : List Dialogue) : Except Unit (List Dialogue) :=
  if lines.all (validDialogue speakerNames emotionNames speedNames) then
    Except.ok lines
  else
    Except.error ()

/-- One transcript segment's attempt oracle as seen through the
Validated Script Parser: attempt `a` parses to the raw lines `raw a`
and succeeds iff validation accepts the whole batch. -/
def validatedSegmentAttempts (speakerNames emotionNames speedNames : List String)
    (raw : Nat → List Dialogue) : Nat → Except Unit (List Dialogue) :=
  fun a => validateTranscriptBatch speakerNames emotionNames speedNames (raw a)

/-! ## Speed configuration (`src/podcast_creator/speed.py`) -/

/-- The default `SpeedConfig.speeds` mapping (float multipliers modelled
as rationals). -/
def speedsDefault : List (String × ℚ) := [("slow", 9/10), ("normal", 1), ("fast", 11/10)]

/-- The lookup `SpeedConfig.get_speed_name_value`: a name missing from the mapping
logs a warning and yields the neutral multiplier `1.0`; a configured
name yields its configured multiplier.  The boolean records whether the
warning was logged. -/
def get_speed_name_value (speeds : List (String × ℚ)) (name : String) : ℚ × Bool :=
  match speeds.lookup name with
  | none => (1, true)
  | some v => (v, false)

end Podica

namespace Podica

/-! ## Helper lemmas about the 3-attempt retry loop -/

theorem pyRetry3_all_fail (succ : Nat → Bool) (h : ∀ a, a < 3 → succ a = false) :
    pyRetry succ 3 1 = ⟨Except.error (), 3, List.replicate 2 1⟩ := by
  have h0 := h 0 (by norm_num)
  have h1 := h 1 (by norm_num)
  have h2 := h 2 (by norm_num)
  simp [pyRetry, pyRetryFrom, h0, h1, h2]

theorem pyRetry3_first_success (succ : Nat → Bool) (k : Nat) (hk : k < 3)
    (hs : succ k = true) (hp : ∀ j, j < k → succ j = false) :
    pyRetry succ 3 1 = ⟨Except.ok k, k + 1, List.replicate k 1⟩ := by
  interval_cases k
  · simp [pyRetry, pyRetryFrom, hs]
  · have h0 := hp 0 (by norm_num)
    simp [pyRetry, pyRetryFrom, h0, hs]
  · have h0 := hp 0 (by norm_num)
    have h1 := hp 1 (by norm_num)
    simp [pyRetry, pyRetryFrom, h0, h1, hs]

/-- If every segment `i` first succeeds on attempt `K i < 3`, the run
succeeds: the transcript is the concatenation, in segment order, of each
segment's first-successful-parse output, and segment `i` is called
exactly `K i + 1` times (its retries re-issue only its own call). -/
theorem generateTranscriptSegments_ok
    (segs : List (Nat → Except Unit (List Dialogue))) (K : Nat → Nat)
    (acc : List Dialogue)
    (h : ∀ i : Fin segs.length, K i.val < 3 ∧
      (segs.get i (K i.val)).isOk = true ∧
      ∀ j, j < K i.val → (segs.get i j).isOk = false) :
    generateTranscriptSegments segs acc =
      (Except.ok (acc ++ (List.ofFn (fun i : Fin segs.length =>
          (segs.get i (K i.val)).toOption.getD [])).flatten),
       List.ofFn (fun i : Fin segs.length => K i.val + 1)) := by
  induction segs generalizing K acc with
  | nil => simp [generateTranscriptSegments]
  | cons o rest ih =>
    obtain ⟨hK0, hok0, hprev0⟩ := h ⟨0, by simp⟩
    have hr : transcriptSegmentRetry (fun a => (o a).isOk) =
        ⟨Except.ok (K 0), K 0 + 1, List.replicate (K 0) 1⟩ := by
      exact pyRetry3_first_success _ _ hK0 hok0 hprev0
    have hrest := ih (fun i => K (i + 1))
      (acc ++ ((o (K 0)).toOption.getD []))
      (fun i => h i.succ)
    simp only [generateTranscriptSegments, hr]
    rw [hrest]
    simp [List.ofFn_succ, List.append_assoc]

/-- If segments `0, …, m-1` all succeed within budget but segment `m`
fails all 3 of its attempts, the run aborts with a fatal error right
there: segments after `m` are never called, and the per-segment call
counts are `K 0 + 1, …, K (m-1) + 1, 3`. -/
theorem generateTranscriptSegments_fatal
    (segs : List (Nat → Except Unit (List Dialogue))) (K : Nat → Nat)
    (acc : List Dialogue) (m : Fin segs.length)
    (h : ∀ i : Fin segs.length, i.val < m.val → K i.val < 3 ∧
      (segs.get i (K i.val)).isOk = true ∧
      ∀ j, j < K i.val → (segs.get i j).isOk = false)
    (hm : ∀ a, a < 3 → (segs.get m a).isOk = false) :
    generateTranscriptSegments segs acc =
      (Except.error (), (List.range m.val).map (fun i => K i + 1) ++ [3]) := by
  induction segs generalizing K acc with
  | nil => exact absurd m.isLt (by simp)
  | cons o rest ih =>
    rcases hm0 : m.val with _ | m'
    · have hmz : m = ⟨0, by simp⟩ := by
        apply Fin.ext
        simp [hm0]
      have hr : transcriptSegmentRetry (fun a => (o a).isOk) =
          ⟨Except.error (), 3, List.replicate 2 1⟩ := by
        apply pyRetry3_all_fail
        intro a ha
        have h2 := hm a ha
        rw [hmz] at h2
        simpa using h2
      simp [generateTranscriptSegments, hr, hm0]
    · obtain ⟨hK0, hok0, hprev0⟩ := h ⟨0, by simp⟩ (by simp [hm0])
      have hr : transcriptSegmentRetry (fun a => (o a).isOk) =
          ⟨Except.ok (K 0), K 0 + 1, List.replicate (K 0) 1⟩ :=
        pyRetry3_first_success _ _ hK0 hok0 hprev0
      have hm' : m' < rest.length := by
        have hlt := m.isLt
        rw [hm0] at hlt
        simp at hlt
        omega
      have hrest := ih (fun i => K (i + 1))
        (acc ++ ((o (K 0)).toOption.getD []))
        ⟨m', hm'⟩
        (fun i hi => h i.succ (by
          have hi' : i.val < m' := by simpa using hi
          simp only [Fin.val_succ, hm0]
          omega))
        (by
          intro a ha
          have h2 := hm a ha
          have hms : m = (⟨m' + 1, by rw [← hm0]; exact m.isLt⟩ :
              Fin (o :: rest).length) := by
            apply Fin.ext
            simp [hm0]
          rw [hms] at h2
          simpa using h2)
      simp only [generateTranscriptSegments, hr]
      rw [hrest]
      simp [hm0, List.range_succ_eq_map, List.map_map, Function.comp]

/-- C4: both `generate_outline_node` and, per outline segment
independently, `generate_transcript_node` attempt the model call plus
parse at most 3 times with a 1-second pause between attempts and raise a
fatal error after the 3rd consecutive failure; a retry for segment `N`
re-issues only segment `N`'s call (`K i + 1` calls for segment `i`,
regardless of the other segments' oracles), and the dialogue turns of
segments before `N` are kept and appended in segment order. -/
theorem C4_outline_transcript_retry :
    (∀ succ : Nat → Bool,
      ((∀ a, a < 3 → succ a = false) →
        outlineRetry succ = ⟨Except.error (), 3, List.replicate 2 1⟩) ∧
      (∀ k, k < 3 → succ k = true → (∀ j, j < k → succ j = false) →
        outlineRetry succ = ⟨Except.ok k, k + 1, List.replicate k 1⟩)) ∧
    (∀ segs : List (Nat → Except Unit (List Dialogue)), ∀ K : Nat → Nat,
      (∀ i : Fin segs.length, K i.val < 3 ∧
        (segs.get i (K i.val)).isOk = true ∧
        ∀ j, j < K i.val → (segs.get i j).isOk = false) →
      generateTranscriptSegments segs [] =
        (Except.ok (List.ofFn (fun i : Fin segs.length =>
            (segs.get i (K i.val)).toOption.getD [])).flatten,
         List.ofFn (fun i : Fin segs.length => K i.val + 1))) ∧
    (∀ segs : List (Nat → Except Unit (List Dialogue)), ∀ K : Nat → Nat,
      ∀ m : Fin segs.length,
      (∀ i : Fin segs.length, i.val < m.val → K i.val < 3 ∧
        (segs.get i (K i.val)).isOk = true ∧
        ∀ j, j < K i.val → (segs.get i j).isOk = false) →
      (∀ a, a < 3 → (segs.get m a).isOk = false) →
      generateTranscriptSegments segs [] =
        (Except.error (), (List.range m.val).map (fun i => K i + 1) ++ [3])) := by
  refine ⟨fun succ => ⟨fun h => pyRetry3_all_fail succ h,
    fun k hk hs hp => pyRetry3_first_success succ k hk hs hp⟩, ?_, ?_⟩
  · intro segs K h
    simpa using generateTranscriptSegments_ok segs K [] h
  · intro segs K m h hm
    exact generateTranscriptSegments_fatal segs K [] m h hm

/-- C4 witness: the outline loop fails fatally after 3 straight failures
with two 1-second pauses; with two transcript segments where the second
needs one retry, the run succeeds with the turns of both segments
appended in segment order and call counts `[1, 2]`. -/
theorem C4_outline_transcript_retry_witness :
    outlineRetry (fun _ => false) =
      ⟨Except.error (), 3, List.replicate 2 1⟩ ∧
    generateTranscriptSegments
      [fun _ => Except.ok [⟨"Alice", "Hello", none, none⟩],
       fun a => if a == 1 then Except.ok [⟨"Bob", "Hi", none, none⟩]
                else Except.error ()] [] =
      (Except.ok [⟨"Alice", "Hello", none, none⟩, ⟨"Bob", "Hi", none, none⟩],
       [1, 2]) := by
  constructor
  · exact (C4_outline_transcript_retry.1 (fun _ => false)).1 (fun a _ => rfl)
  · have h := C4_outline_transcript_retry.2.1
      [fun _ => Except.ok [⟨"Alice", "Hello", none, none⟩],
       fun a => if a == 1 then Except.ok [⟨"Bob", "Hi", none, none⟩]
                else Except.error ()]
      (fun i => i) (by decide)
    rw [h]
    rfl

/-! ## Helper lemmas about the scheduler's batch slicing -/

theorem pyRangeAux_get (stop step : Nat) (hstep : 0 < step) :
    ∀ fuel s k, k < (pyRangeAux stop step fuel s).length →
      (pyRangeAux stop step fuel s)[k]? = some (s + k * step) := by
  intro fuel
  induction fuel with
  | zero => intro s k h; simp [pyRangeAux] at h
  | succ fuel ih =>
    intro s k h
    by_cases hst : s < stop
    · have hcond : 0 < step ∧ s < stop := ⟨hstep, hst⟩
      simp only [pyRangeAux, if_pos hcond] at h ⊢
      match k with
      | 0 => simp
      | k + 1 =>
        have hrec := ih (s + step) k (by simpa using h)
        simp only [List.getElem?_cons_succ, hrec]
        congr 1
        ring
    · simp [pyRangeAux, hst] at h

theorem pyRangeAux_length (stop step : Nat) (hstep : 0 < step) :
    ∀ fuel s, ∀ k, k < (pyRangeAux stop step fuel s).length →
      s + k * step < stop := by
  intro fuel
  induction fuel with
  | zero => intro s k h; simp [pyRangeAux] at h
  | succ fuel ih =>
    intro s k h
    by_cases hst : s < stop
    · have hcond : 0 < step ∧ s < stop := ⟨hstep, hst⟩
      simp only [pyRangeAux, if_pos hcond] at h
      match k with
      | 0 => simpa using hst
      | k + 1 =>
        have hrec := ih (s + step) k (by simpa using h)
        have hmul : (k + 1) * step = k * step + step := by ring
        omega
    · simp [pyRangeAux, hst] at h

theorem pyRangeAux_flatten (total bs : Nat) (hbs : 0 < bs) :
    ∀ fuel s, total - s ≤ fuel →
    ((pyRangeAux total bs fuel s).map
      (fun st => List.range' st (min (st + bs) total - st))).flatten
      = List.range' s (total - s) := by
  intro fuel
  induction fuel with
  | zero =>
    intro s hs
    have h0 : total - s = 0 := by omega
    simp [pyRangeAux, h0]
  | succ fuel ih =>
    intro s hs
    by_cases hst : s < total
    · have hcond : 0 < bs ∧ s < total := ⟨hbs, hst⟩
      simp only [pyRangeAux, if_pos hcond, List.map_cons, List.flatten_cons]
      rw [ih (s + bs) (by omega)]
      by_cases hfit : s + bs ≤ total
      · have h1 : min (s + bs) total - s = bs := by omega
        rw [h1]
        have happ := List.range'_append s bs (total - (s + bs)) 1
        simp only [one_mul] at happ
        rw [happ]
        congr 1
        omega
      · have h1 : min (s + bs) total - s = total - s := by omega
        have h2 : total - (s + bs) = 0 := by omega
        rw [h1, h2]
        simp
    · have h0 : total - s = 0 := by omega
      simp [pyRangeAux, hst, h0]

theorem audioBatches_flatten (total bs : Nat) (hbs : 0 < bs) :
    (audioBatches total bs).flatten = List.range total := by
  have := pyRangeAux_flatten total bs hbs total 0 (by omega)
  simp only [Nat.sub_zero] at this
  rw [audioBatches, pyRangeStep, Nat.sub_zero, this, List.range_eq_range']

theorem audioBatches_get (total bs : Nat) (hbs : 0 < bs) (k : Nat)
    (h : k < (audioBatches total bs).length) :
    (audioBatches total bs).get ⟨k, h⟩ =
      List.range' (k * bs) (min bs (total - k * bs)) := by
  have hlen : k < (pyRangeStep 0 total bs).length := by
    simpa [audioBatches] using h
  have hget := pyRangeAux_get total bs hbs (total - 0) 0 k
    (by simpa [pyRangeStep] using hlen)
  have hlt := pyRangeAux_length total bs hbs (total - 0) 0 k
    (by simpa [pyRangeStep] using hlen)
  have h? : (audioBatches total bs)[k]? =
      some (List.range' (k * bs) (min bs (total - k * bs))) := by
    simp only [audioBatches, pyRangeStep, List.getElem?_map]
    rw [hget]
    simp only [Option.map_some', Option.some.injEq]
    have hz : (0 : Nat) + k * bs = k * bs := by omega
    rw [hz]
    congr 1
    omega
  have hg := List.getElem?_eq_getElem h
  rw [h?] at hg
  simp only [List.get_eq_getElem]
  exact (Option.some.inj hg).symm

/-- In a batch-sequential trace, any event of an earlier batch occurs at
a strictly smaller trace position than any event of a later batch. -/
theorem flatMap_batchEvents_before (L : List (List Nat)) (a b : Nat)
    (ha : a < L.length) (hb : b < L.length) (hab : a < b)
    (ea eb : AudioEvent)
    (hea : ea ∈ batchEvents (L.get ⟨a, ha⟩))
    (heb : eb ∈ batchEvents (L.get ⟨b, hb⟩)) :
    ∃ p q : Nat, p < q ∧ (L.flatMap batchEvents)[p]? = some ea ∧
      (L.flatMap batchEvents)[q]? = some eb := by
  have hsplit : L.flatMap batchEvents =
      (L.take b).flatMap batchEvents ++ (L.drop b).flatMap batchEvents := by
    rw [← List.flatMap_append, List.take_append_drop]
  have hbatch_a : L.get ⟨a, ha⟩ ∈ L.take b := by
    have halen : a < (L.take b).length := by
      simp only [List.length_take]
      omega
    have hmem := List.getElem_mem halen
    rw [List.getElem_take L] at hmem
    simp only [List.get_eq_getElem]
    exact hmem
  have hbatch_b : L.get ⟨b, hb⟩ ∈ L.drop b := by
    have hblen : 0 < (L.drop b).length := by
      simp only [List.length_drop]
      omega
    have hmem := List.getElem_mem hblen
    have heq : (L.drop b)[0] = L[b] := by simp
    rw [heq] at hmem
    simp only [List.get_eq_getElem]
    exact hmem
  have hmem_pre : ea ∈ (L.take b).flatMap batchEvents :=
    List.mem_flatMap.mpr ⟨_, hbatch_a, hea⟩
  have hmem_suf : eb ∈ (L.drop b).flatMap batchEvents :=
    List.mem_flatMap.mpr ⟨_, hbatch_b, heb⟩
  obtain ⟨p, hpn, hpe⟩ := List.mem_iff_getElem.mp hmem_pre
  obtain ⟨r, hrn, hre⟩ := List.mem_iff_getElem.mp hmem_suf
  refine ⟨p, ((L.take b).flatMap batchEvents).length + r, by omega, ?_, ?_⟩
  · rw [hsplit, List.getElem?_append_left hpn, List.getElem?_eq_getElem hpn, hpe]
  · rw [hsplit, List.getElem?_append_right (by omega)]
    have hr : ((L.take b).flatMap batchEvents).length + r -
        ((L.take b).flatMap batchEvents).length = r := by omega
    rw [hr, List.getElem?_eq_getElem hrn, hre]

/-- C1: for a transcript of length `N`, a successful run of
`generate_all_audio_node` records exactly `N` clip paths, and the path
at index `i` is `{output_dir}/clips/` followed by `i` zero-padded to 4
digits and `.mp3` — the clip list is index-aligned with the
transcript. -/
theorem C1_clip_paths_aligned (outputDir : String) (total bs : Nat)
    (hbs : 0 < bs) :
    (generateAllAudioPaths outputDir total bs).length = total ∧
    ∀ i, i < total → (generateAllAudioPaths outputDir total bs)[i]? =
      some (outputDir ++ "/clips/" ++ zeroPad4 i ++ ".mp3") := by
  have key : generateAllAudioPaths outputDir total bs =
      (List.range total).map (clipPath outputDir) := by
    have h1 : generateAllAudioPaths outputDir total bs =
        ((audioBatches total bs).map (List.map (clipPath outputDir))).flatten := rfl
    rw [h1, ← List.map_flatten, audioBatches_flatten total bs hbs]
  constructor
  · rw [key]
    simp
  · intro i hi
    rw [key, List.getElem?_map, List.getElem?_range hi]
    rfl

/-- C1 witness: 3 transcript lines, batch size 2 — three clip paths,
each `out/clips/000i.mp3` at index `i`. -/
theorem C1_clip_paths_aligned_witness :
    (generateAllAudioPaths "out" 3 2).length = 3 ∧
    (generateAllAudioPaths "out" 3 2)[2]? = some "out/clips/0002.mp3" := by
  refine ⟨(C1_clip_paths_aligned "out" 3 2 (by norm_num)).1, ?_⟩
  rw [(C1_clip_paths_aligned "out" 3 2 (by norm_num)).2 2 (by norm_num)]
  rfl

/-- C5: the scheduler partitions transcript indices `0 … N-1` into
consecutive batches — flattening the batches in order gives back
`0 … N-1`, batch `k` is the slice starting at `k·bs` of length `bs`
(shorter for the final remainder), for 12 lines and batch size 5 the
batch sizes are 5, 5, 2 — and in the execution trace no line of a later
batch starts before every line of the current batch has finished. -/
theorem C5_batch_schedule (total bs : Nat) (hbs : 0 < bs) :
    (audioBatches total bs).flatten = List.range total ∧
    (∀ k, ∀ h : k < (audioBatches total bs).length,
      (audioBatches total bs).get ⟨k, h⟩ =
        List.range' (k * bs) (min bs (total - k * bs))) ∧
    (audioBatches 12 5).map List.length = [5, 5, 2] ∧
    (∀ a b, ∀ ha : a < (audioBatches total bs).length,
      ∀ hb : b < (audioBatches total bs).length, a < b →
      ∀ i ∈ (audioBatches total bs).get ⟨a, ha⟩,
      ∀ j ∈ (audioBatches total bs).get ⟨b, hb⟩,
      ∃ p q : Nat, p < q ∧
        (audioTrace total bs)[p]? = some (AudioEvent.finish i) ∧
        (audioTrace total bs)[q]? = some (AudioEvent.start j)) := by
  refine ⟨audioBatches_flatten total bs hbs,
    fun k h => audioBatches_get total bs hbs k h, by decide, ?_⟩
  intro a b ha hb hab i hi j hj
  exact flatMap_batchEvents_before (audioBatches total bs) a b ha hb hab
    (AudioEvent.finish i) (AudioEvent.start j)
    (List.mem_append_right _ (List.mem_map.mpr ⟨i, hi, rfl⟩))
    (List.mem_append_left _ (List.mem_map.mpr ⟨j, hj, rfl⟩))

/-- C5 witness: for 12 lines and batch size 5, the batches flatten back
to `0 … 11`, and line 4 (first batch) finishes strictly before line 10
(third batch) starts in the trace. -/
theorem C5_batch_schedule_witness :
    (audioBatches 12 5).flatten = List.range 12 ∧
    ∃ p q : Nat, p < q ∧
      (audioTrace 12 5)[p]? = some (AudioEvent.finish 4) ∧
      (audioTrace 12 5)[q]? = some (AudioEvent.start 10) := by
  refine ⟨(C5_batch_schedule 12 5 (by norm_num)).1, ?_⟩
  exact (C5_batch_schedule 12 5 (by norm_num)).2.2.2 0 2
    (by decide) (by decide) (by norm_num) 4 (by decide) 10 (by decide)

/-- C3: for each dialogue line, `generate_single_audio_clip` attempts the
synthesis call at most 5 times with a 3-second pause between attempts; if
all 5 attempts fail it raises a fatal `RuntimeError`; if any attempt up
to and including the 5th succeeds (e.g. 4 failures then a success) the
clip is produced and no error is raised. -/
theorem C3_audio_clip_retry (succeeds : Nat → Bool) :
    ((∀ a, a < 5 → succeeds a = false) →
      (audioClipRetry succeeds).outcome = Except.error () ∧
      (audioClipRetry succeeds).calls = 5 ∧
      (audioClipRetry succeeds).sleeps = List.replicate 4 3) ∧
    (∀ k, k < 5 → succeeds k = true → (∀ j, j < k → succeeds j = false) →
      (audioClipRetry succeeds).outcome = Except.ok k ∧
      (audioClipRetry succeeds).calls = k + 1 ∧
      (audioClipRetry succeeds).sleeps = List.replicate k 3) ∧
    (audioClipRetry succeeds).calls ≤ 5 := by
  refine ⟨?_, ?_, ?_⟩
  · intro h
    have h0 := h 0 (by norm_num)
    have h1 := h 1 (by norm_num)
    have h2 := h 2 (by norm_num)
    have h3 := h 3 (by norm_num)
    have h4 := h 4 (by norm_num)
    simp [audioClipRetry, pyRetry, pyRetryFrom, h0, h1, h2, h3, h4]
  · intro k hk hsk hprev
    interval_cases k
    · simp [audioClipRetry, pyRetry, pyRetryFrom, hsk]
    · have h0 := hprev 0 (by norm_num)
      simp [audioClipRetry, pyRetry, pyRetryFrom, h0, hsk]
    · have h0 := hprev 0 (by norm_num)
      have h1 := hprev 1 (by norm_num)
      simp [audioClipRetry, pyRetry, pyRetryFrom, h0, h1, hsk]
    · have h0 := hprev 0 (by norm_num)
      have h1 := hprev 1 (by norm_num)
      have h2 := hprev 2 (by norm_num)
      simp [audioClipRetry, pyRetry, pyRetryFrom, h0, h1, h2, hsk]
    · have h0 := hprev 0 (by norm_num)
      have h1 := hprev 1 (by norm_num)
      have h2 := hprev 2 (by norm_num)
      have h3 := hprev 3 (by norm_num)
      simp [audioClipRetry, pyRetry, pyRetryFrom, h0, h1, h2, h3, hsk]
  · rcases h0 : succeeds 0 <;> rcases h1 : succeeds 1 <;>
      rcases h2 : succeeds 2 <;> rcases h3 : succeeds 3 <;>
      rcases h4 : succeeds 4 <;>
      simp [audioClipRetry, pyRetry, pyRetryFrom, h0, h1, h2, h3, h4]

/-- C3 witness: 4 failures followed by a success on the 5th attempt yields
the clip; 5 straight failures yield the fatal error with four 3-second
pauses. -/
theorem C3_audio_clip_retry_witness :
    (audioClipRetry (fun a => a == 4)).outcome = Except.ok 4 ∧
    (audioClipRetry (fun _ => false)).outcome = Except.error () ∧
    (audioClipRetry (fun _ => false)).sleeps = List.replicate 4 3 := by
  refine ⟨?_, ?_, ?_⟩
  · exact ((C3_audio_clip_retry (fun a => a == 4)).2.1 4 (by norm_num)
      (by decide) (by decide)).1
  · exact ((C3_audio_clip_retry (fun _ => false)).1
      (fun a _ => rfl)).1
  · exact ((C3_audio_clip_retry (fun _ => false)).1
      (fun a _ => rfl)).2.2

/-- C2 (amended): the Content Preprocessor's thresholds are evaluated on
the whitespace-stripped item (`len(item.strip())`): if the stripped
length exceeds 5000 the item is summarized (one model call); else if the
stripped length is at least 500 the item passes through unchanged with
no model call; else one classifier call decides, and either a second
call replaces the item with the answer or the item passes through
unchanged after the single classifier call. -/
theorem C2_content_branches (o : ContentOracle) (briefing item : String) :
    (5000 < (pyStrip item).length →
      contentTransformItem o briefing item = (o.summarize briefing item, 1)) ∧
    ((pyStrip item).length ≤ 5000 → 500 ≤ (pyStrip item).length →
      contentTransformItem o briefing item = (item, 0)) ∧
    ((pyStrip item).length < 500 → o.judge item = true →
      contentTransformItem o briefing item = (o.answer item, 2)) ∧
    ((pyStrip item).length < 500 → o.judge item = false →
      contentTransformItem o briefing item = (item, 1)) := by
  unfold contentTransformItem
  refine ⟨?_, ?_, ?_, ?_⟩
  · intro h
    rw [if_pos h]
  · intro h1 h2
    rw [if_neg (by omega), if_pos h2]
  · intro h1 hj
    rw [if_neg (by omega), if_neg (by omega), if_pos hj]
  · intro h1 hj
    rw [if_neg (by omega), if_neg (by omega), if_neg (by simp [hj])]

set_option maxRecDepth 8192 in
/-- C2 witness: a short question-like item is answered in two model
calls; a 600-character item passes through unchanged with no call. -/
theorem C2_content_branches_witness :
    contentTransformItem c2Oracle "" c2Item = ("ANSWER", 2) ∧
    contentTransformItem c2Oracle "" (String.mk (List.replicate 600 'a')) =
      (String.mk (List.replicate 600 'a'), 0) := by
  constructor
  · exact (C2_content_branches c2Oracle "" c2Item).2.2.1 (by decide) rfl
  · exact (C2_content_branches c2Oracle ""
      (String.mk (List.replicate 600 'a'))).2.1 (by decide) (by decide)

set_option maxRecDepth 8192 in
/-- C2 counterexample: for the 500-character item `c2Item`
(499 letters plus a trailing space), the raw length is ≥ 500 and
≤ 5000, yet the preprocessor does not return it unchanged with no model
call — it strips the item first (499 < 500) and runs the classifier
branch, replacing the item with the answer after two model calls. -/
theorem C2_raw_length_counterexample :
    500 ≤ c2Item.length ∧ ¬ 5000 < c2Item.length ∧
    contentTransformItem c2Oracle "" c2Item ≠ (c2Item, 0) ∧
    contentTransformItem c2Oracle "" c2Item = ("ANSWER", 2) := by
  refine ⟨by decide, by decide, by decide, by decide⟩

/-- C6: `generate_single_audio_clip` sets the `instructions` TTS option
to the raw emotion tag carried by the dialogue line
(`tts_kwargs["instructions"] = dialogue.emotion`), not to the configured
emotion's description text (`Emotion.get_voice_instructions`, which is
never called): for the `"Cheerful"` tag the backend receives
`"Cheerful"`, although the configured description text differs. -/
theorem C6_emotion_instructions_divergence :
    (buildTTSKwargs c6Dialogue [] (fun _ => none) none).instructions =
      some "Cheerful" ∧
    c6Emotion.name = "Cheerful" ∧
    c6Emotion.get_voice_instructions = "Speak with a bright, upbeat tone." ∧
    (buildTTSKwargs c6Dialogue [] (fun _ => none) none).instructions ≠
      some c6Emotion.get_voice_instructions := by
  refine ⟨by decide, rfl, by decide, by decide⟩

/-- C7: requesting a dialect the Kokoro backend does not support never
fails the line — the scheduler passes the dialect through in
`tts_kwargs`, and the backend call returns exactly the no-dialect
result (audio in the default language variant) plus a logged warning. -/
theorem C7_dialect_fallback (d : String) (hd : d.isEmpty = false)
    (hunsup : d ∉ kokoroSupportedDialects) :
    (∀ (dialogue : Dialogue) (customVoices : List (String × String))
      (fileB64 : String → Option String),
      (buildTTSKwargs dialogue customVoices fileB64 (some d)).dialect = some d) ∧
    (∀ (env : KokoroEnv) (text voice : String) (instructions : Option String)
      (speed : ℚ),
      kokoroGenerateSpeech env text voice instructions (some d) speed =
        (kokoroGenerateSpeech env text voice instructions none speed).map
          (fun r => ⟨r.audio, r.warnings ++ [kokoroDialectWarning d]⟩)) := by
  constructor
  · intro dlg cv fb
    simp [buildTTSKwargs, pyTruthyStr, hd]
  · intro env text voice instr speed
    simp only [kokoroGenerateSpeech, hd]
    cases List.lookup "default"
        (if env.detectLang (env.removeDialectTag text) == "zh" then
          env.voiceMapZh else env.voiceMapEn) with
    | none => rfl
    | some dflt => simp [Except.map, hd]

/-- C7 witness: dialect `"sichuan"` (not among Kokoro's supported
dialects) is passed through by the scheduler and yields the same audio
as a no-dialect call, with the dialect warning logged. -/
theorem C7_dialect_fallback_witness :
    ("sichuan" : String).isEmpty = false ∧
    "sichuan" ∉ kokoroSupportedDialects ∧
    (buildTTSKwargs ⟨"Alice", "hi", none, none⟩ [] (fun _ => none)
      (some "sichuan")).dialect = some "sichuan" ∧
    kokoroGenerateSpeech c7Env "hello" "alloy" none (some "sichuan") 1 =
      Except.ok ⟨[1, 2, 3], [kokoroDialectWarning "sichuan"]⟩ := by
  refine ⟨rfl, by decide, ?_, ?_⟩
  · exact (C7_dialect_fallback "sichuan" rfl (by decide)).1
      ⟨"Alice", "hi", none, none⟩ [] (fun _ => none)
  · rw [(C7_dialect_fallback "sichuan" rfl (by decide)).2 c7Env "hello" "alloy"
      none 1]
    rfl

/-- C8: the Validated Script Parser rejects a segment's entire output
when any line names a speaker, emotion, or speed outside the configured
vocabularies — validation is whole-or-nothing (an accepted batch is
returned in full, a batch with any invalid line is rejected in full),
and in the per-segment retry loop a rejected batch contributes no lines
to the transcript: the retry is re-issued and only the later accepted
batch is appended. -/
theorem C8_whole_batch_rejection (sn en spn : List String) :
    (∀ lines : List Dialogue,
      (∃ d ∈ lines, validDialogue sn en spn d = false) →
      validateTranscriptBatch sn en spn lines = Except.error ()) ∧
    (∀ lines out, validateTranscriptBatch sn en spn lines = Except.ok out →
      out = lines ∧ ∀ d ∈ lines, validDialogue sn en spn d = true) ∧
    (∀ raw : Nat → List Dialogue,
      (∃ d ∈ raw 0, validDialogue sn en spn d = false) →
      (raw 1).all (validDialogue sn en spn) = true →
      generateTranscriptSegments [validatedSegmentAttempts sn en spn raw] [] =
        (Except.ok (raw 1), [2])) := by
  refine ⟨?_, ?_, ?_⟩
  · intro lines ⟨d, hd, hbad⟩
    have hall : lines.all (validDialogue sn en spn) = false := by
      rw [List.all_eq_false]
      exact ⟨d, hd, by simp [hbad]⟩
    simp [validateTranscriptBatch, hall]
  · intro lines out h
    unfold validateTranscriptBatch at h
    split_ifs at h with hall
    · exact ⟨(Except.ok.inj h).symm, fun d hd => List.all_eq_true.mp hall d hd⟩
  · intro raw ⟨d, hd, hbad⟩ hok1
    have hok : validatedSegmentAttempts sn en spn raw 1 = Except.ok (raw 1) := by
      simp [validatedSegmentAttempts, validateTranscriptBatch, hok1]
    have herr : validatedSegmentAttempts sn en spn raw 0 = Except.error () := by
      have hall : (raw 0).all (validDialogue sn en spn) = false := by
        rw [List.all_eq_false]
        exact ⟨d, hd, by simp [hbad]⟩
      simp [validatedSegmentAttempts, validateTranscriptBatch, hall]
    have h := generateTranscriptSegments_ok
      [validatedSegmentAttempts sn en spn raw] (fun _ => 1) []
      (by
        intro i
        refine ⟨by norm_num, ?_, ?_⟩
        · simp [List.get, hok, Except.isOk, Except.toBool]
        · intro j hj
          interval_cases j
          simp [List.get, herr, Except.isOk, Except.toBool])
    rw [h]
    simp [List.get, hok, Except.toOption, List.ofFn_succ]

/-- C8 witness: a batch whose single line names the unconfigured speaker
`"Mallory"` is rejected outright, and in the retry loop the segment's
transcript contains only the second, fully valid batch, after 2 calls. -/
theorem C8_whole_batch_rejection_witness :
    validateTranscriptBatch ["Alice"] ["Cheerful"] ["fast"]
      [⟨"Mallory", "hi", none, none⟩] = Except.error () ∧
    generateTranscriptSegments
      [validatedSegmentAttempts ["Alice"] ["Cheerful"] ["fast"]
        (fun a => if a == 0 then [⟨"Mallory", "hi", none, none⟩]
                  else [⟨"Alice", "welcome", some "Cheerful", none⟩])] [] =
      (Except.ok [⟨"Alice", "welcome", some "Cheerful", none⟩], [2]) := by
  constructor
  · exact (C8_whole_batch_rejection ["Alice"] ["Cheerful"] ["fast"]).1
      [⟨"Mallory", "hi", none, none⟩]
      ⟨⟨"Mallory", "hi", none, none⟩, by decide, by decide⟩
  · exact (C8_whole_batch_rejection ["Alice"] ["Cheerful"] ["fast"]).2.2
      (fun a => if a == 0 then [⟨"Mallory", "hi", none, none⟩]
                else [⟨"Alice", "welcome", some "Cheerful", none⟩])
      ⟨⟨"Mallory", "hi", none, none⟩, by decide, by decide⟩ (by decide)

/-! ## Helper lemmas for the speaker-profile invariants -/

theorem string_append_cancel_left (p a b : String) (h : p ++ a = p ++ b) :
    a = b := by
  have hd := congrArg String.data h
  simp only [String.data_append] at hd
  exact String.ext (List.append_cancel_left hd)

theorem map_nodup_get_ne {α : Type} (v : List α) (f : α → String)
    (h : (v.map f).Nodup) (i j : Fin v.length) (hij : i ≠ j) :
    f (v.get i) ≠ f (v.get j) := by
  have hi : i.val < (v.map f).length := by simp [i.isLt]
  have hj : j.val < (v.map f).length := by simp [j.isLt]
  intro he
  have heq : (v.map f).get ⟨i.val, hi⟩ = (v.map f).get ⟨j.val, hj⟩ := by
    simp only [List.get_eq_getElem, List.getElem_map]
    simpa [List.get_eq_getElem] using he
  have hvij := (List.Nodup.get_inj_iff h).mp heq
  apply hij
  apply Fin.ext
  simpa [Fin.ext_iff] using hvij

theorem speakerVoiceKey_of_not_custom (s : Speaker) (h : s.voice_id ≠ "custom") :
    speakerVoiceKey s = s.voice_id := by
  unfold speakerVoiceKey
  cases s.custom_voice with
  | none => rfl
  | some cv => simp [h]

/-- C9: a speaker list accepted by `SpeakerProfile.validate_speakers`
has between 1 and 4 speakers, pairwise-distinct names, and
pairwise-distinct voice ids except that speakers sharing the voice id
`"custom"` must have distinct custom-voice references; the validator
returns the list unchanged, and (contrapositively) any profile violating
these conditions is rejected with a validation error. -/
theorem C9_speaker_profile_invariants (v out : List Speaker)
    (h : validate_speakers v = Except.ok out) :
    out = v ∧ 1 ≤ v.length ∧ v.length ≤ 4 ∧
    (v.map Speaker.name).Nodup ∧
    ∀ i j : Fin v.length, i ≠ j →
      (v.get i).voice_id ≠ (v.get j).voice_id ∨
      ((v.get i).voice_id = "custom" ∧ (v.get j).voice_id = "custom" ∧
        (v.get i).custom_voice ≠ (v.get j).custom_voice) := by
  unfold validate_speakers at h
  split_ifs at h with h1 h2 h3
  have hout : out = v := (Except.ok.inj h).symm
  have hnames : (v.map Speaker.name).Nodup := h2
  have hkeys : (v.map speakerVoiceKey).Nodup := h3
  refine ⟨hout, by omega, by omega, hnames, ?_⟩
  intro i j hij
  have hne := map_nodup_get_ne v speakerVoiceKey hkeys i j hij
  by_cases hvid : (v.get i).voice_id = (v.get j).voice_id
  · right
    have hcust : (v.get i).voice_id = "custom" := by
      by_contra hnc
      apply hne
      rw [speakerVoiceKey_of_not_custom _ hnc,
        speakerVoiceKey_of_not_custom _ (hvid ▸ hnc)]
      exact hvid
    refine ⟨hcust, hvid ▸ hcust, ?_⟩
    intro hcv
    apply hne
    unfold speakerVoiceKey
    rw [hcv, hvid]
  · left
    exact hvid

/-- C9 witness: the concrete three-speaker profile (one preset voice,
two `"custom"` voices with distinct references) validates successfully
and satisfies all the invariants. -/
theorem C9_speaker_profile_invariants_witness :
    (c9Speakers.map Speaker.name).Nodup ∧
    1 ≤ c9Speakers.length ∧ c9Speakers.length ≤ 4 := by
  have h := C9_speaker_profile_invariants c9Speakers c9Speakers rfl
  exact ⟨h.2.2.2.1, h.2.1, h.2.2.1⟩

/-- C10: `SpeedConfig.get_speed_name_value` returns the neutral
multiplier `1.0` (with a warning) for any name missing from the
configured mapping, and the configured multiplier for any present
name. -/
theorem C10_speed_lookup (speeds : List (String × ℚ)) (name : String) :
    (speeds.lookup name = none → get_speed_name_value speeds name = (1, true)) ∧
    (∀ x, speeds.lookup name = some x →
      get_speed_name_value speeds name = (x, false)) := by
  constructor
  · intro h
    simp [get_speed_name_value, h]
  · intro x h
    simp [get_speed_name_value, h]

/-- C10 witness: on the default mapping, `"slow"` yields its configured
multiplier 0.9 and the unconfigured `"whisper"` yields 1.0 with a
warning. -/
theorem C10_speed_lookup_witness :
    get_speed_name_value speedsDefault "slow" = (9/10, false) ∧
    get_speed_name_value speedsDefault "whisper" = (1, true) := by
  constructor
  · exact (C10_speed_lookup speedsDefault "slow").2 (9/10)
      (by simp [speedsDefault, List.lookup])
  · exact (C10_speed_lookup speedsDefault "whisper").1
      (by simp [speedsDefault, List.lookup])

end Podica
